import Mathlib

/-!
Shallow embedding of the scan-acquire-encode engine of the capstone
force-sensing-grid firmware (files `Core/Src/grid_scan.c`,
`Core/Inc/grid_scan.h`, `Core/Inc/grid_mux.h` and the ADS1220-based
variants).  Matrices of cell values are embedded as functions
`Nat → Nat → Nat`; the C `for` loops that write one cell at a time are
embedded as left folds over `List.range`, performing one functional
update per loop iteration.  Machine-integer truncation is modelled with
explicit `% 2 ^ w` at each point where the C code narrows a value.
-/

namespace CapstoneGrid

/-- One loop-body store `m[r][c] = h r c m[r][c]` of a C double loop:
functional update of a matrix at a single cell, where the written value
may read the cell's current content (used by `+=` accumulation). -/
def upd2 (h : Nat → Nat → Nat → Nat) (r c : Nat) (d : Nat → Nat → Nat) :
    Nat → Nat → Nat :=
  fun i j => if i = r ∧ j = c then h r c (d r c) else d i j

/-- The inner `for (col …)` loop of a row/column double loop: updates the
cells `(r, c)` for every `c` in `cols`, left to right. -/
def passRow (h : Nat → Nat → Nat → Nat) (r : Nat) (cols : List Nat)
    (d : Nat → Nat → Nat) : Nat → Nat → Nat :=
  cols.foldl (fun d' c => upd2 h r c d') d

/-- A full `for (row …) for (col …)` double loop over a matrix. -/
def pass2 (h : Nat → Nat → Nat → Nat) (rows cols : List Nat)
    (d : Nat → Nat → Nat) : Nat → Nat → Nat :=
  rows.foldl (fun d' r => passRow h r cols d') d

/-! ## 40x40 variant (`Core/Src/grid_scan.c` with the 40x40 `grid_scan.h`
and `grid_mux.h`/`grid_mux.c`): internal 12-bit ADC, CD4051 multiplexers. -/

namespace V40

def GRID_NUM_ROWS : Nat := 40
def GRID_NUM_COLS : Nat := 40
def ADC_MAX_VALUE : Nat := 4095
def ADC_NOISE_THRESHOLD : Nat := 50
def SCAN_ADC_SAMPLES : Nat := 4
def CALIBRATION_SAMPLES : Nat := 8
def MUX_CHANNELS_PER_CHIP : Nat := 8
def MUX_ROW_COUNT : Nat := 5
def MUX_COL_COUNT : Nat := 5

/-- `GRID_ReadADC`: sums `SCAN_ADC_SAMPLES` HAL conversion results in a
`uint32_t` accumulator (wrapping at `2^32`), divides by the sample count
and narrows the average to `uint16_t`.  The HAL conversion results are
supplied by the oracle `hal` (one entry per loop iteration). -/
def GRID_ReadADC (hal : Nat → Nat) : Nat :=
  ((List.range SCAN_ADC_SAMPLES).foldl
      (fun sum i => (sum + hal i) % 2 ^ 32) 0) / SCAN_ADC_SAMPLES % 2 ^ 16

/-- Calibrated branch of the per-cell correction in `GRID_ScanMatrix` /
`GRID_ReadCell`: `diff = (int32_t)baseline - (int32_t)raw;
pressure = diff > 0 ? (uint16_t)diff : 0`.  Both operands are `uint16_t`
values, so the `int32_t` casts are exact and the subtraction is modelled
on `Int`; the `(uint16_t)diff` narrowing keeps its `% 2^16`. -/
def correctCalibrated (b raw : Nat) : Nat :=
  if ((b : Int) - (raw : Int)) > 0
  then ((b : Int) - (raw : Int)).toNat % 2 ^ 16
  else 0

/-- Uncalibrated branch: `pressure = raw < ADC_MAX_VALUE ?
ADC_MAX_VALUE - raw : 0` (all `uint16_t` arithmetic, no underflow by the
guard). -/
def correctUncalibrated (raw : Nat) : Nat :=
  if raw < ADC_MAX_VALUE then ADC_MAX_VALUE - raw else 0

/-- Per-cell processing of `GRID_ScanMatrix`: pick the correction branch
by the `s_IsCalibrated` flag, then zero the result when it is below
`ADC_NOISE_THRESHOLD`. -/
def processPressure (isCal : Bool) (b raw : Nat) : Nat :=
  let pressure := if isCal then correctCalibrated b raw
                  else correctUncalibrated raw
  if pressure < ADC_NOISE_THRESHOLD then 0 else pressure

/-- Data-flow model of `GRID_ScanMatrix`: the row/column double loop
stores the processed pressure of every cell into `g_GridData.data`.
`raw r c` is the `GRID_ReadADC()` result obtained when the loop visits
cell `(r, c)`; `d0` is the prior content of the `data` array. -/
def GRID_ScanMatrix (isCal : Bool) (baseline raw : Nat → Nat → Nat)
    (d0 : Nat → Nat → Nat) : Nat → Nat → Nat :=
  CapstoneGrid.pass2
    (fun r c _ => processPressure isCal (baseline r c) (raw r c))
    (List.range GRID_NUM_ROWS) (List.range GRID_NUM_COLS) d0

/-- Data-flow model of `GRID_Calibrate`: clear the `uint16_t` baseline
array, accumulate `CALIBRATION_SAMPLES` full scans into it cell by cell
(each `+=` wrapping at `2^16`), then divide every entry by the sample
count.  `read s r c` is the `GRID_ReadADC()` result at cell `(r, c)` of
scan number `s`. -/
def GRID_Calibrate (read : Nat → Nat → Nat → Nat) : Nat → Nat → Nat :=
  let acc := (List.range CALIBRATION_SAMPLES).foldl
    (fun b s =>
      CapstoneGrid.pass2 (fun r c old => (old + read s r c) % 2 ^ 16)
        (List.range GRID_NUM_ROWS) (List.range GRID_NUM_COLS) b)
    (fun _ _ => 0)
  CapstoneGrid.pass2 (fun _ _ old => old / CALIBRATION_SAMPLES)
    (List.range GRID_NUM_ROWS) (List.range GRID_NUM_COLS) acc

/-- Observable multiplexer/GPIO state driven by `grid_mux.c`.
`rowEn i` / `colEn i` record whether chip `i`'s active-low enable pin is
asserted (pin LOW ⇔ `true`); `sel` is the 3-bit code on the shared
S0/S1/S2 select bus; `rowDrive` is the PA1 row-drive level. -/
structure MuxState where
  rowEn : Nat → Bool
  colEn : Nat → Bool
  sel : Nat
  rowDrive : Bool

/-- `MUX_DisableAllRowMux`: drives every row-mux enable pin HIGH
(disabled) for the `MUX_ROW_COUNT` chips. -/
def MUX_DisableAllRowMux (s : MuxState) : MuxState :=
  { s with rowEn := fun i => if i < MUX_ROW_COUNT then false else s.rowEn i }

/-- Whether entry `i` of the `ColMuxEnablePins[MUX_COL_COUNT]` lookup
table carries a real port/pin pair.  The initializer list in `grid_mux.c`
names only three pairs (PC5, PC6, PC7 for chips 0-2); C aggregate
zero-initialization makes entries 3 and 4 `{NULL, 0}`, so a
`HAL_GPIO_WritePin` through them reaches no pin of any chip. -/
def colMuxPinWired (i : Nat) : Bool := decide (i < 3)

/-- `MUX_DisableAllColMux`: the loop writes HIGH through every table
entry `i < MUX_COL_COUNT`, but only the wired entries (chips 0-2) have a
pin to drive; chips 3 and 4 keep their previous enable state. -/
def MUX_DisableAllColMux (s : MuxState) : MuxState :=
  { s with colEn := fun i =>
      if i < MUX_COL_COUNT ∧ colMuxPinWired i then false else s.colEn i }

/-- `MUX_SetChannel`: masks the argument to 3 bits and presents it on the
shared select bus. -/
def MUX_SetChannel (channel : Nat) (s : MuxState) : MuxState :=
  { s with sel := channel % 8 }

/-- `MUX_EnableRowMux`: bounds-guarded; first disables every chip of the
row group, then asserts the selected chip's active-low enable. -/
def MUX_EnableRowMux (muxIndex : Nat) (s : MuxState) : MuxState :=
  if muxIndex ≥ MUX_ROW_COUNT then s
  else
    let s' := MUX_DisableAllRowMux s
    { s' with rowEn := fun j => if j = muxIndex then true else s'.rowEn j }

/-- `MUX_EnableColMux`: bounds-guarded; writes HIGH through the whole
table, then LOW through entry `muxIndex`.  For `muxIndex` 3 or 4 the
final write goes through a `{NULL, 0}` entry and asserts no chip. -/
def MUX_EnableColMux (muxIndex : Nat) (s : MuxState) : MuxState :=
  if muxIndex ≥ MUX_COL_COUNT then s
  else
    let s' := MUX_DisableAllColMux s
    if colMuxPinWired muxIndex then
      { s' with colEn := fun j => if j = muxIndex then true else s'.colEn j }
    else s'

/-- `MUX_SelectRow`: no-op on an out-of-range row; otherwise presents
`row % 8` on the select bus and enables chip `row / 8`. -/
def MUX_SelectRow (row : Nat) (s : MuxState) : MuxState :=
  if row ≥ GRID_NUM_ROWS then s
  else
    MUX_EnableRowMux (row / MUX_CHANNELS_PER_CHIP)
      (MUX_SetChannel (row % MUX_CHANNELS_PER_CHIP) s)

/-- `MUX_SelectCol`: same for columns. -/
def MUX_SelectCol (col : Nat) (s : MuxState) : MuxState :=
  if col ≥ GRID_NUM_COLS then s
  else
    MUX_EnableColMux (col / MUX_CHANNELS_PER_CHIP)
      (MUX_SetChannel (col % MUX_CHANNELS_PER_CHIP) s)

/-- `MUX_Init`: disables both mux groups, drops the row drive and selects
channel 0. -/
def MUX_Init (s : MuxState) : MuxState :=
  MUX_SetChannel 0
    { MUX_DisableAllColMux (MUX_DisableAllRowMux s) with rowDrive := false }

/-- `GRID_ReadCell`: bounds-guarded single-cell read.  Out-of-range
indices return 0 with the hardware state untouched; otherwise the cell is
addressed, one averaged ADC reading is taken, the hardware is
de-addressed and the corrected pressure is returned together with the
final hardware state. -/
def GRID_ReadCell (isCal : Bool) (baseline : Nat → Nat → Nat)
    (hal : Nat → Nat) (row col : Nat) (s : MuxState) : Nat × MuxState :=
  if row ≥ GRID_NUM_ROWS ∨ col ≥ GRID_NUM_COLS then (0, s)
  else
    let s1 := MUX_SelectRow row s
    let s2 := { s1 with rowDrive := true }
    let s3 := MUX_SelectCol col s2
    let raw := GRID_ReadADC hal
    let s4 := { s3 with rowDrive := false }
    let s5 := MUX_DisableAllColMux (MUX_DisableAllRowMux s4)
    (processPressure isCal (baseline row col) raw, s5)

end V40

/-! ## 16x32 variant (ADS1220-based `grid_scan.c` / `grid_scan.h`):
24-bit external converters, direct GPIO row drive, values right-shifted
to 16 bits before storage. -/

namespace V16

def GRID_NUM_ROWS : Nat := 16
def GRID_NUM_COLS : Nat := 32
def ADC_MAX_VALUE : Nat := 0xFFFFFF
def ADC_NOISE_THRESHOLD : Nat := 5000
def ADC_SCALE_SHIFT : Nat := 8
def CALIBRATION_SAMPLES : Nat := 4

/-- Correction step of the ADS1220 `GRID_ScanMatrix`: calibrated branch
`diff = (int32_t)baseline - (int32_t)raw; pressure = diff > 0 ?
(uint32_t)diff : 0`, uncalibrated branch `raw < ADC_MAX_VALUE ?
ADC_MAX_VALUE - raw : 0`.  `baseline` and `raw` are `uint32_t` holding
24-bit conversion results, so the `int32_t` casts are exact for
in-range values; the `(uint32_t)diff` narrowing keeps its `% 2^32`. -/
def correct24 (isCal : Bool) (b raw : Nat) : Nat :=
  if isCal then
    if ((b : Int) - (raw : Int)) > 0
    then ((b : Int) - (raw : Int)).toNat % 2 ^ 32
    else 0
  else
    if raw < ADC_MAX_VALUE then ADC_MAX_VALUE - raw else 0

/-- Noise-floor step: `if (pressure < ADC_NOISE_THRESHOLD) pressure = 0`. -/
def thresh24 (pressure : Nat) : Nat :=
  if pressure < ADC_NOISE_THRESHOLD then 0 else pressure

/-- Final store of the ADS1220 scan loop:
`data[row][col] = (uint16_t)(pressure >> ADC_SCALE_SHIFT)` applied to the
thresholded, corrected value. -/
def scanCell24 (isCal : Bool) (b raw : Nat) : Nat :=
  thresh24 (correct24 isCal b raw) >>> ADC_SCALE_SHIFT % 2 ^ 16

/-- Data-flow model of the ADS1220 `GRID_ScanMatrix`: per row, all 32
columns are read (`ADS1220_ReadAllColumns`) and each cell is corrected,
thresholded, shifted and stored.  `raw r c` is the 24-bit conversion
result for cell `(r, c)`. -/
def GRID_ScanMatrix (isCal : Bool) (baseline raw : Nat → Nat → Nat)
    (d0 : Nat → Nat → Nat) : Nat → Nat → Nat :=
  CapstoneGrid.pass2
    (fun r c _ => scanCell24 isCal (baseline r c) (raw r c))
    (List.range GRID_NUM_ROWS) (List.range GRID_NUM_COLS) d0

/-- Row-driver GPIO bank state (PC0-PC15); `pins i = true` means row `i`
is driven HIGH. -/
structure RowState where
  pins : Nat → Bool

/-- `GRID_DisableAllRows`: writes the whole `ROW_GPIO_PINS` mask LOW. -/
def GRID_DisableAllRows (s : RowState) : RowState :=
  { pins := fun i => if i < GRID_NUM_ROWS then false else s.pins i }

/-- `GRID_EnableRow`: bounds-guarded; disables every row first, then
drives the selected row's pin HIGH. -/
def GRID_EnableRow (row : Nat) (s : RowState) : RowState :=
  if row ≥ GRID_NUM_ROWS then s
  else
    let s' := GRID_DisableAllRows s
    { pins := fun i => if i = row then true else s'.pins i }

end V16

/-! ## Frame encoder (`GRID_TransmitData`), parametric in the grid
dimensions: all three size variants share this byte-for-byte structure. -/

namespace Packet

def PACKET_SYNC_BYTE_1 : Nat := 0xAA
def PACKET_SYNC_BYTE_2 : Nat := 0x55

/-- Low byte of a `uint16_t` value: `(uint8_t)(val & 0xFF)`. -/
def loByte (v : Nat) : Nat := v % 256

/-- High byte of a `uint16_t` value: `(uint8_t)(val >> 8)`. -/
def hiByte (v : Nat) : Nat := v / 256 % 256

/-- Payload bytes written by the transmit double loop: each cell value in
row-major order, low byte first. -/
def payload (rows cols : Nat) (data : Nat → Nat → Nat) : List Nat :=
  (List.range rows).flatMap fun r =>
    (List.range cols).flatMap fun c =>
      [loByte (data r c), hiByte (data r c)]

/-- Running `uint16_t` checksum accumulated byte by byte alongside the
payload stores (`checksum += …` wrapping at `2^16`). -/
def checksumOf (bytes : List Nat) : Nat :=
  bytes.foldl (fun a b => (a + b) % 2 ^ 16) 0

/-- `GRID_TransmitData`: the complete packet handed to
`HAL_UART_Transmit` — two sync bytes, the payload, the checksum as two
little-endian bytes, then CR LF. -/
def GRID_TransmitData (rows cols : Nat) (data : Nat → Nat → Nat) :
    List Nat :=
  let pl := payload rows cols data
  let ck := checksumOf pl
  [PACKET_SYNC_BYTE_1, PACKET_SYNC_BYTE_2] ++ pl ++
    [ck % 256, ck / 256 % 256, 13, 10]

end Packet

/-- At most one chip of a group of `n` multiplexer chips has its
active-low enable asserted. -/
def atMostOneEnabled (f : Nat -> Bool) (n : Nat) : Prop :=
  forall i j, i < n -> j < n -> f i = true -> f j = true -> i = j

/-- A concrete mux/GPIO state used to instantiate the addressing
theorems: nothing enabled, channel 0, row drive low. -/
def muxAllOff : V40.MuxState :=
  { rowEn := fun _ => false, colEn := fun _ => false
    sel := 0, rowDrive := false }

/-- A concrete row-driver GPIO state with every row pin low. -/
def rowsAllOff : V16.RowState := { pins := fun _ => false }

/-- A concrete mux state in which only column chip 3 is enabled — the
chip whose enable pin (PC8) no code ever writes — and everything else is
off. -/
def colChip3On : V40.MuxState :=
  { rowEn := fun _ => false, colEn := fun i => i == 3
    sel := 0, rowDrive := false }

/-! ## Cell-level evaluation lemmas for the loop embeddings. -/

theorem passRow_apply (h : Nat → Nat → Nat → Nat) (r : Nat)
    (cols : List Nat) (hnd : cols.Nodup) (d : Nat → Nat → Nat)
    (i j : Nat) :
    passRow h r cols d i j =
      if i = r ∧ j ∈ cols then h r j (d r j) else d i j := by
  induction cols generalizing d with
  | nil => simp [passRow]
  | cons c cs ih =>
    rw [List.nodup_cons] at hnd
    have hrec := ih hnd.2 (upd2 h r c d)
    show passRow h r cs (upd2 h r c d) i j = _
    rw [hrec]
    by_cases hi : i = r
    · by_cases hjc : j = c
      · simp [hi, hjc, upd2, hnd.1]
      · by_cases hjs : j ∈ cs
        · have h2 : upd2 h r c d r j = d r j := by simp [upd2, hjc]
          simp [hi, hjs, hjc, h2]
        · have hmem : j ∉ (c :: cs) := by simp [hjc, hjs]
          simp [hi, hjs, hjc, upd2, hmem]
    · simp [hi, upd2]

theorem pass2_apply (h : Nat → Nat → Nat → Nat) (rows cols : List Nat)
    (hndr : rows.Nodup) (hndc : cols.Nodup) (d : Nat → Nat → Nat)
    (i j : Nat) :
    pass2 h rows cols d i j =
      if i ∈ rows ∧ j ∈ cols then h i j (d i j) else d i j := by
  induction rows generalizing d with
  | nil => simp [pass2]
  | cons r rs ih =>
    rw [List.nodup_cons] at hndr
    have hrec := ih hndr.2 (passRow h r cols d)
    show pass2 h rs cols (passRow h r cols d) i j = _
    rw [hrec, passRow_apply h r cols hndc d i j]
    by_cases hir : i = r
    · subst hir
      have hnr : i ∉ rs := hndr.1
      by_cases hj : j ∈ cols
      · simp [hnr, hj]
      · simp [hnr, hj]
    · by_cases hirs : i ∈ rs
      · by_cases hj : j ∈ cols
        · simp [hirs, hj, hir]
        · simp [hirs, hj, hir]
      · have : i ∉ (r :: rs) := by simp [hir, hirs]
        simp [hirs, hir, this]

/-- Wrapping accumulation `a = (a + b) % W` over a list equals plain
summation followed by one final reduction mod `W`. -/
theorem foldl_add_mod (W : Nat) (l : List Nat) (a : Nat) :
    l.foldl (fun x b => (x + b) % W) (a % W) = (a + l.sum) % W := by
  induction l generalizing a with
  | nil => simp
  | cons b bs ih =>
    show bs.foldl (fun x b => (x + b) % W) ((a % W + b) % W) = _
    have h1 : (a % W + b) % W = (a + b) % W := by
      conv_rhs => rw [← Nat.mod_add_mod]
    rw [h1, ih (a + b)]
    simp [List.sum_cons, Nat.add_assoc]

/-- Wrapping accumulation never actually wraps when the genuine total
stays below the modulus. -/
theorem foldl_add_mod_of_lt (W : Nat) (l : List Nat) (a : Nat)
    (hlt : a + l.sum < W) :
    l.foldl (fun x b => (x + b) % W) a = a + l.sum := by
  induction l generalizing a with
  | nil => simp
  | cons b bs ih =>
    show bs.foldl (fun x b => (x + b) % W) ((a + b) % W) = _
    have hs : b + bs.sum = (b :: bs).sum := by simp
    have hab : a + b + bs.sum < W := by
      simp [List.sum_cons] at hlt
      omega
    have hmod : (a + b) % W = a + b := Nat.mod_eq_of_lt (by omega)
    rw [hmod, ih (a + b) hab]
    simp [List.sum_cons, Nat.add_assoc]


theorem scanMatrix_apply (isCal : Bool) (baseline raw d0 : Nat → Nat → Nat)
    (r c : Nat) (hr : r < V40.GRID_NUM_ROWS) (hc : c < V40.GRID_NUM_COLS) :
    V40.GRID_ScanMatrix isCal baseline raw d0 r c =
      V40.processPressure isCal (baseline r c) (raw r c) := by
  unfold V40.GRID_ScanMatrix
  rw [pass2_apply _ _ _ (List.nodup_range _) (List.nodup_range _)]
  simp [List.mem_range, hr, hc]

theorem scanMatrix16_apply (isCal : Bool) (baseline raw d0 : Nat → Nat → Nat)
    (r c : Nat) (hr : r < V16.GRID_NUM_ROWS) (hc : c < V16.GRID_NUM_COLS) :
    V16.GRID_ScanMatrix isCal baseline raw d0 r c =
      V16.scanCell24 isCal (baseline r c) (raw r c) := by
  unfold V16.GRID_ScanMatrix
  rw [pass2_apply _ _ _ (List.nodup_range _) (List.nodup_range _)]
  simp [List.mem_range, hr, hc]

theorem calibrateAccum_apply (read : Nat → Nat → Nat → Nat)
    (scans : List Nat) (b0 : Nat → Nat → Nat) (r c : Nat)
    (hr : r < V40.GRID_NUM_ROWS) (hc : c < V40.GRID_NUM_COLS) :
    (scans.foldl
        (fun b s =>
          pass2 (fun r' c' old => (old + read s r' c') % 2 ^ 16)
            (List.range V40.GRID_NUM_ROWS) (List.range V40.GRID_NUM_COLS) b)
        b0) r c =
      scans.foldl (fun a s => (a + read s r c) % 2 ^ 16) (b0 r c) := by
  induction scans generalizing b0 with
  | nil => rfl
  | cons s ss ih =>
    show (ss.foldl _ (pass2 _ _ _ b0)) r c = _
    rw [ih]
    rw [pass2_apply _ _ _ (List.nodup_range _) (List.nodup_range _)]
    simp [List.mem_range, hr, hc]

theorem calibrate_apply (read : Nat → Nat → Nat → Nat) (r c : Nat)
    (hr : r < V40.GRID_NUM_ROWS) (hc : c < V40.GRID_NUM_COLS) :
    V40.GRID_Calibrate read r c =
      ((List.range V40.CALIBRATION_SAMPLES).foldl
          (fun a s => (a + read s r c) % 2 ^ 16) 0) /
        V40.CALIBRATION_SAMPLES := by
  unfold V40.GRID_Calibrate
  rw [pass2_apply _ _ _ (List.nodup_range _) (List.nodup_range _)]
  simp only [List.mem_range, hr, hc, and_self, if_true]
  rw [calibrateAccum_apply read _ _ r c hr hc]

end CapstoneGrid

open CapstoneGrid

/-! ## Claim theorems. -/

/-- C1: for every cell `(r, c)` with `r < rows` and `c < cols`, a
full-grid scan performed before any calibration stores
`frame[r][c] = max(0, FULL_SCALE - raw(r, c))`, with the result set to 0
whenever it falls below `NOISE_THRESHOLD`. -/
theorem uncalibrated_scan_inverts_full_scale
    (baseline raw d0 : Nat → Nat → Nat) (r c : Nat)
    (hr : r < V40.GRID_NUM_ROWS) (hc : c < V40.GRID_NUM_COLS) :
    V40.GRID_ScanMatrix false baseline raw d0 r c =
      if (max 0 ((V40.ADC_MAX_VALUE : Int) - (raw r c : Int))).toNat <
          V40.ADC_NOISE_THRESHOLD then 0
      else (max 0 ((V40.ADC_MAX_VALUE : Int) - (raw r c : Int))).toNat := by
  rw [scanMatrix_apply _ _ _ _ _ _ hr hc]
  have key : (max 0 ((V40.ADC_MAX_VALUE : Int) - (raw r c : Int))).toNat =
      V40.correctUncalibrated (raw r c) := by
    unfold V40.correctUncalibrated V40.ADC_MAX_VALUE
    push_cast
    rcases max_cases 0 ((4095 : Int) - (raw r c : Int)) with ⟨heq, hle⟩ | ⟨heq, hlt⟩ <;>
      rw [heq] <;> split <;> omega
  rw [key]
  simp only [V40.processPressure, Bool.false_eq_true, if_false]

/-- C1 witness: a concrete uncalibrated scan cell, raw reading 3000,
stored intensity 4095 - 3000 = 1095. -/
theorem uncalibrated_scan_inverts_full_scale_witness :
    V40.GRID_ScanMatrix false (fun _ _ => 0) (fun _ _ => 3000)
      (fun _ _ => 0) 1 2 = 1095 := by
  rw [uncalibrated_scan_inverts_full_scale (fun _ _ => 0) (fun _ _ => 3000)
    (fun _ _ => 0) 1 2 (by decide) (by decide)]
  decide

/-- C2: when calibrated, the corrected intensity equals
`max(0, baseline - raw)` for every `uint16_t` baseline entry and raw
sample: the subtraction saturates at zero and never underflows. -/
theorem calibrated_correction_saturates
    (b raw : Nat) (hb : b < 2 ^ 16) (hraw : raw < 2 ^ 16) :
    V40.correctCalibrated b raw = (max 0 ((b : Int) - (raw : Int))).toNat := by
  unfold V40.correctCalibrated
  rcases max_cases 0 ((b : Int) - (raw : Int)) with ⟨heq, hle⟩ | ⟨heq, hlt⟩ <;>
    rw [heq] <;> split
  · omega
  · omega
  · rw [Nat.mod_eq_of_lt (by omega)]
  · omega

/-- C2 witness: concrete saturation cases, one positive difference and
one clamped-to-zero difference. -/
theorem calibrated_correction_saturates_witness :
    V40.correctCalibrated 4095 3000 =
      (max 0 ((4095 : Int) - (3000 : Int))).toNat ∧
    V40.correctCalibrated 100 4000 = 0 := by
  constructor
  · exact calibrated_correction_saturates 4095 3000 (by decide) (by decide)
  · rw [calibrated_correction_saturates 100 4000 (by decide) (by decide)]
    decide

/-- Length of the payload produced by the transmit loop. -/
theorem payload_length (rows cols : Nat) (data : Nat → Nat → Nat) :
    (Packet.payload rows cols data).length = rows * (cols * 2) := by
  unfold Packet.payload
  rw [List.length_flatMap]
  have hinner : ∀ r,
      ((List.range cols).flatMap fun c =>
        [Packet.loByte (data r c), Packet.hiByte (data r c)]).length =
      cols * 2 := by
    intro r
    rw [List.length_flatMap]
    have hlen2 : (List.length ∘ fun c =>
        [Packet.loByte (data r c), Packet.hiByte (data r c)]) =
        fun _ => 2 := by
      funext c; rfl
    rw [hlen2, List.map_const', List.sum_replicate]
    simp [List.length_range]
  have houter : (List.length ∘ fun r =>
      (List.range cols).flatMap fun c =>
        [Packet.loByte (data r c), Packet.hiByte (data r c)]) =
      fun _ => cols * 2 := by
    funext r; exact hinner r
  rw [houter, List.map_const', List.sum_replicate]
  simp [List.length_range]

/-- The running wrapped checksum equals the payload byte sum mod `2^16`. -/
theorem checksumOf_eq_sum_mod (bytes : List Nat) :
    Packet.checksumOf bytes = bytes.sum % 2 ^ 16 := by
  unfold Packet.checksumOf
  simpa using CapstoneGrid.foldl_add_mod (2 ^ 16) bytes 0

/-- C3: for every frame, the encoded packet has exactly
`2 + rows*cols*2 + 4` bytes: 2 sync bytes, `rows*cols` 16-bit values as
two little-endian bytes each in row-major order, a 2-byte checksum and a
2-byte terminator. -/
theorem packet_length_invariant (rows cols : Nat) (data : Nat → Nat → Nat) :
    (Packet.GRID_TransmitData rows cols data).length =
      2 + rows * cols * 2 + 4 := by
  unfold Packet.GRID_TransmitData
  simp [payload_length]
  ring

/-- C4: the 16-bit checksum field written into the packet equals the sum
of all payload bytes modulo 65536, stored as two little-endian bytes
(followed by the CR LF terminator). -/
theorem checksum_field_is_payload_sum (rows cols : Nat)
    (data : Nat → Nat → Nat) :
    (Packet.GRID_TransmitData rows cols data).drop (2 + rows * cols * 2) =
      [(Packet.payload rows cols data).sum % 2 ^ 16 % 256,
       (Packet.payload rows cols data).sum % 2 ^ 16 / 256, 13, 10] := by
  show ([Packet.PACKET_SYNC_BYTE_1, Packet.PACKET_SYNC_BYTE_2] ++
      Packet.payload rows cols data ++
      [Packet.checksumOf (Packet.payload rows cols data) % 256,
       Packet.checksumOf (Packet.payload rows cols data) / 256 % 256,
       13, 10]).drop (2 + rows * cols * 2) = _
  rw [checksumOf_eq_sum_mod]
  have hlen : ([Packet.PACKET_SYNC_BYTE_1, Packet.PACKET_SYNC_BYTE_2] ++
      Packet.payload rows cols data).length = 2 + rows * cols * 2 := by
    simp [payload_length]
    ring
  rw [List.drop_left' hlen]
  have hdiv : (Packet.payload rows cols data).sum % 2 ^ 16 / 256 % 256 =
      (Packet.payload rows cols data).sum % 2 ^ 16 / 256 := by
    apply Nat.mod_eq_of_lt
    have := Nat.mod_lt (Packet.payload rows cols data).sum
      (show 0 < 2 ^ 16 by decide)
    omega
  rw [hdiv]

/-- C5: calibration accumulates `CALIBRATION_SAMPLES` full scans per cell
and integer-divides by the sample count; in particular a constant reading
`v` yields `baseline[r][c] = v` exactly. -/
theorem calibration_truncated_average (read : Nat → Nat → Nat → Nat)
    (r c : Nat) (hr : r < V40.GRID_NUM_ROWS) (hc : c < V40.GRID_NUM_COLS)
    (hbound : ∀ s, s < V40.CALIBRATION_SAMPLES →
      read s r c ≤ V40.ADC_MAX_VALUE) :
    V40.GRID_Calibrate read r c =
      ((List.range V40.CALIBRATION_SAMPLES).map fun s => read s r c).sum /
        V40.CALIBRATION_SAMPLES ∧
    ∀ v, (∀ s, s < V40.CALIBRATION_SAMPLES → read s r c = v) →
      V40.GRID_Calibrate read r c = v := by
  have hsumle :
      ((List.range V40.CALIBRATION_SAMPLES).map fun s => read s r c).sum ≤
        V40.CALIBRATION_SAMPLES * V40.ADC_MAX_VALUE := by
    have hmem : ∀ x ∈ (List.range V40.CALIBRATION_SAMPLES).map
        (fun s => read s r c), x ≤ V40.ADC_MAX_VALUE := by
      intro x hx
      rcases List.mem_map.mp hx with ⟨s, hs, rfl⟩
      exact hbound s (List.mem_range.mp hs)
    have := List.sum_le_card_nsmul _ _ hmem
    simpa using this
  have hfold :
      (List.range V40.CALIBRATION_SAMPLES).foldl
          (fun a s => (a + read s r c) % 2 ^ 16) 0 =
        ((List.range V40.CALIBRATION_SAMPLES).map fun s => read s r c).sum := by
    rw [← List.foldl_map (fun s => read s r c)
      (fun x b => (x + b) % 2 ^ 16)]
    have hlt : 0 + ((List.range V40.CALIBRATION_SAMPLES).map
        fun s => read s r c).sum < 2 ^ 16 := by
      have h8 : V40.CALIBRATION_SAMPLES * V40.ADC_MAX_VALUE = 32760 := by
        decide
      omega
    have := foldl_add_mod_of_lt (2 ^ 16) _ 0 hlt
    simpa using this
  have hmain : V40.GRID_Calibrate read r c =
      ((List.range V40.CALIBRATION_SAMPLES).map fun s => read s r c).sum /
        V40.CALIBRATION_SAMPLES := by
    rw [calibrate_apply read r c hr hc, hfold]
  refine ⟨hmain, ?_⟩
  intro v hconst
  have hrepl : ((List.range V40.CALIBRATION_SAMPLES).map fun s => read s r c)
      = List.replicate V40.CALIBRATION_SAMPLES v := by
    have := List.map_congr_left
      (l := List.range V40.CALIBRATION_SAMPLES)
      (f := fun s => read s r c) (g := fun _ => v)
      (fun s hs => hconst s (List.mem_range.mp hs))
    rw [this, List.map_const', List.length_range]
  rw [hmain, hrepl]
  have hsr : (List.replicate V40.CALIBRATION_SAMPLES v).sum =
      V40.CALIBRATION_SAMPLES * v := by
    rw [List.sum_replicate, smul_eq_mul]
  rw [hsr]
  exact Nat.mul_div_cancel_left v (by decide)

/-- C5 witness: constant readings of 1000 over all eight calibration
scans give baseline entry exactly 1000. -/
theorem calibration_truncated_average_witness :
    V40.GRID_Calibrate (fun _ _ _ => 1000) 3 7 = 1000 := by
  refine (calibration_truncated_average (fun _ _ _ => 1000) 3 7
    (by decide) (by decide) (fun s _ => ?_)).2 1000 (fun _ _ => rfl)
  show (1000 : Nat) ≤ V40.ADC_MAX_VALUE
  decide

/-- C6: in the 24-bit ADS1220 variant, the stored 16-bit value is the
fixed right-shift of the corrected-and-thresholded value: the shift is
applied after the baseline-subtraction/inversion correction and after the
noise-threshold comparison, never before them. -/
theorem scale_shift_after_threshold (isCal : Bool)
    (baseline raw d0 : Nat → Nat → Nat) (r c : Nat)
    (hr : r < V16.GRID_NUM_ROWS) (hc : c < V16.GRID_NUM_COLS)
    (hb : baseline r c ≤ V16.ADC_MAX_VALUE)
    (hraw : raw r c ≤ V16.ADC_MAX_VALUE) :
    V16.GRID_ScanMatrix isCal baseline raw d0 r c =
      V16.thresh24 (V16.correct24 isCal (baseline r c) (raw r c)) /
        2 ^ V16.ADC_SCALE_SHIFT := by
  rw [scanMatrix16_apply _ _ _ _ _ _ hr hc]
  unfold V16.scanCell24
  have hcb : V16.correct24 isCal (baseline r c) (raw r c) ≤
      V16.ADC_MAX_VALUE := by
    unfold V16.correct24
    split
    · split
      · calc ((baseline r c : Int) - (raw r c : Int)).toNat % 2 ^ 32
              ≤ ((baseline r c : Int) - (raw r c : Int)).toNat :=
            Nat.mod_le _ _
          _ ≤ baseline r c := by omega
          _ ≤ V16.ADC_MAX_VALUE := hb
      · exact Nat.zero_le _
    · split
      · unfold V16.ADC_MAX_VALUE
        omega
      · exact Nat.zero_le _
  have htb : V16.thresh24 (V16.correct24 isCal (baseline r c) (raw r c)) ≤
      V16.ADC_MAX_VALUE := by
    unfold V16.thresh24
    split
    · exact Nat.zero_le _
    · exact hcb
  rw [Nat.shiftRight_eq_div_pow]
  apply Nat.mod_eq_of_lt
  have hdivle : V16.thresh24 (V16.correct24 isCal (baseline r c) (raw r c)) /
      2 ^ V16.ADC_SCALE_SHIFT ≤ V16.ADC_MAX_VALUE / 2 ^ V16.ADC_SCALE_SHIFT :=
    Nat.div_le_div_right htb
  have hmax : V16.ADC_MAX_VALUE / 2 ^ V16.ADC_SCALE_SHIFT < 2 ^ 16 := by
    decide
  omega

/-- C6 witness: an uncalibrated 24-bit reading whose corrected value 6000
passes the noise floor and is stored as `6000 >> 8 = 23`; shifting before
the threshold comparison would instead have produced 0. -/
theorem scale_shift_after_threshold_witness :
    V16.GRID_ScanMatrix false (fun _ _ => 0) (fun _ _ => 0xFFFFFF - 6000)
      (fun _ _ => 0) 2 5 =
      V16.thresh24 (V16.correct24 false 0 (0xFFFFFF - 6000)) /
        2 ^ V16.ADC_SCALE_SHIFT ∧
    V16.thresh24 (V16.correct24 false 0 (0xFFFFFF - 6000)) /
        2 ^ V16.ADC_SCALE_SHIFT = 23 := by
  constructor
  · exact scale_shift_after_threshold false (fun _ _ => 0)
      (fun _ _ => 0xFFFFFF - 6000) (fun _ _ => 0) 2 5 (by decide) (by decide)
      (by decide) (by decide)
  · decide

/-- C7: an out-of-range row or column index passed to a public addressing
entry point (`MUX_SelectRow`, `MUX_SelectCol`, `GRID_EnableRow`) leaves
the hardware state completely unchanged — a silent no-op, no fault. -/
theorem out_of_range_addressing_noop (s : V40.MuxState) (t : V16.RowState)
    (row col row16 : Nat) (h1 : V40.GRID_NUM_ROWS ≤ row)
    (h2 : V40.GRID_NUM_COLS ≤ col) (h3 : V16.GRID_NUM_ROWS ≤ row16) :
    V40.MUX_SelectRow row s = s ∧ V40.MUX_SelectCol col s = s ∧
      V16.GRID_EnableRow row16 t = t := by
  refine ⟨?_, ?_, ?_⟩
  · unfold V40.MUX_SelectRow
    rw [if_pos h1]
  · unfold V40.MUX_SelectCol
    rw [if_pos h2]
  · unfold V16.GRID_EnableRow
    rw [if_pos h3]

/-- C7 witness: rows 45 and 20 and column 99 are out of range for their
respective variants and leave a concrete all-off state untouched. -/
theorem out_of_range_addressing_noop_witness :
    V40.MUX_SelectRow 45 muxAllOff = muxAllOff ∧
    V40.MUX_SelectCol 99 muxAllOff = muxAllOff ∧
    V16.GRID_EnableRow 20 rowsAllOff = rowsAllOff :=
  out_of_range_addressing_noop muxAllOff rowsAllOff 45 99 20
    (by decide) (by decide) (by decide)

/-- C9: `GRID_ReadCell` with an out-of-range row or column returns 0 and
performs no selection, acquisition or state change. -/
theorem out_of_range_read_cell_zero (isCal : Bool)
    (baseline : Nat → Nat → Nat) (hal : Nat → Nat) (row col : Nat)
    (s : V40.MuxState)
    (h : V40.GRID_NUM_ROWS ≤ row ∨ V40.GRID_NUM_COLS ≤ col) :
    V40.GRID_ReadCell isCal baseline hal row col s = (0, s) := by
  unfold V40.GRID_ReadCell
  rw [if_pos h]

/-- C9 witness: reading cell (40, 0) of the 40x40 grid returns 0 and does
not change a concrete all-off mux state. -/
theorem out_of_range_read_cell_zero_witness :
    V40.GRID_ReadCell false (fun _ _ => 0) (fun _ => 0) 40 0 muxAllOff =
      (0, muxAllOff) :=
  out_of_range_read_cell_zero false (fun _ _ => 0) (fun _ => 0) 40 0
    muxAllOff (Or.inl (by decide))

/-- C8: the claim fails on the code for the column group.  The row-group
half of the mechanism is wired, but `ColMuxEnablePins` leaves chips 3 and
4 unwired (`{NULL, 0}` zero-initialized entries), so `MUX_DisableAllColMux`
does not disable an enabled chip 3, `MUX_EnableColMux 3` asserts no chip,
and the addressing operation `MUX_SelectCol 8`, started from a state
satisfying at-most-one-chip-enabled, ends with column chips 1 and 3 both
enabled — mutual exclusion does not hold after every addressing
operation. -/
theorem col_mux_mutual_exclusion_violated :
    atMostOneEnabled colChip3On.colEn V40.MUX_COL_COUNT ∧
    (V40.MUX_DisableAllColMux colChip3On).colEn 3 = true ∧
    (V40.MUX_EnableColMux 3 muxAllOff).colEn 3 = false ∧
    (V40.MUX_SelectCol 8 colChip3On).colEn 1 = true ∧
    (V40.MUX_SelectCol 8 colChip3On).colEn 3 = true ∧
    ¬ atMostOneEnabled ((V40.MUX_SelectCol 8 colChip3On).colEn)
      V40.MUX_COL_COUNT := by
  refine ⟨?_, by decide, by decide, by decide, by decide, ?_⟩
  · intro i j hi hj hfi hfj
    simp [colChip3On] at hfi hfj
    omega
  · intro h
    have h13 := h 1 3 (by decide) (by decide) (by decide) (by decide)
    exact absurd h13 (by decide)

/-- With 12-bit conversion results, `GRID_ReadADC` computes the exact
truncated average of its four samples, and the result is again at most
4095. -/
theorem readADC_bounded (hal : Nat → Nat) (hh : ∀ i, hal i ≤ 4095) :
    V40.GRID_ReadADC hal =
      ((List.range V40.SCAN_ADC_SAMPLES).map hal).sum /
        V40.SCAN_ADC_SAMPLES ∧
    V40.GRID_ReadADC hal ≤ V40.ADC_MAX_VALUE := by
  have hsum : ((List.range V40.SCAN_ADC_SAMPLES).map hal).sum ≤
      V40.SCAN_ADC_SAMPLES * 4095 := by
    have hmem : ∀ x ∈ (List.range V40.SCAN_ADC_SAMPLES).map hal,
        x ≤ 4095 := by
      intro x hx
      rcases List.mem_map.mp hx with ⟨i, _, rfl⟩
      exact hh i
    have := List.sum_le_card_nsmul _ _ hmem
    simpa using this
  have h4 : V40.SCAN_ADC_SAMPLES * 4095 = 16380 := by decide
  have hfold : (List.range V40.SCAN_ADC_SAMPLES).foldl
      (fun sum i => (sum + hal i) % 2 ^ 32) 0 =
      ((List.range V40.SCAN_ADC_SAMPLES).map hal).sum := by
    rw [← List.foldl_map hal (fun x b => (x + b) % 2 ^ 32)]
    have hlt : 0 + ((List.range V40.SCAN_ADC_SAMPLES).map hal).sum <
        2 ^ 32 := by
      omega
    have := foldl_add_mod_of_lt (2 ^ 32) _ 0 hlt
    simpa using this
  have hdivle : ((List.range V40.SCAN_ADC_SAMPLES).map hal).sum /
      V40.SCAN_ADC_SAMPLES ≤ 4095 := by
    have : ((List.range V40.SCAN_ADC_SAMPLES).map hal).sum /
        V40.SCAN_ADC_SAMPLES ≤ 16380 / V40.SCAN_ADC_SAMPLES :=
      Nat.div_le_div_right (by omega)
    have h164 : (16380 : Nat) / V40.SCAN_ADC_SAMPLES = 4095 := by decide
    omega
  constructor
  · unfold V40.GRID_ReadADC
    rw [hfold]
    apply Nat.mod_eq_of_lt
    have : (4095 : Nat) < 2 ^ 16 := by decide
    omega
  · unfold V40.GRID_ReadADC
    rw [hfold]
    calc ((List.range V40.SCAN_ADC_SAMPLES).map hal).sum /
          V40.SCAN_ADC_SAMPLES % 2 ^ 16
        ≤ ((List.range V40.SCAN_ADC_SAMPLES).map hal).sum /
          V40.SCAN_ADC_SAMPLES := Nat.mod_le _ _
      _ ≤ 4095 := hdivle

/-- C10: in the 40x40 variant the per-cell baseline accumulator never
wraps: every `GRID_ReadADC` reading from 12-bit samples is at most 4095,
the eight accumulated readings sum to at most 32760 < 65536, the wrapped
`uint16_t` accumulation equals the true sum, and the stored average is
that sum divided by 8. -/
theorem baseline_accumulator_no_wrap (hal : Nat → Nat → Nat → Nat → Nat)
    (r c : Nat) (hr : r < V40.GRID_NUM_ROWS) (hc : c < V40.GRID_NUM_COLS)
    (hh : ∀ s rr cc i, hal s rr cc i ≤ 4095) :
    (∀ s, V40.GRID_ReadADC (hal s r c) ≤ V40.ADC_MAX_VALUE) ∧
    ((List.range V40.CALIBRATION_SAMPLES).map
        fun s => V40.GRID_ReadADC (hal s r c)).sum ≤ 32760 ∧
    (List.range V40.CALIBRATION_SAMPLES).foldl
        (fun a s => (a + V40.GRID_ReadADC (hal s r c)) % 2 ^ 16) 0 =
      ((List.range V40.CALIBRATION_SAMPLES).map
        fun s => V40.GRID_ReadADC (hal s r c)).sum ∧
    V40.GRID_Calibrate (fun s rr cc => V40.GRID_ReadADC (hal s rr cc)) r c =
      ((List.range V40.CALIBRATION_SAMPLES).map
        fun s => V40.GRID_ReadADC (hal s r c)).sum /
        V40.CALIBRATION_SAMPLES := by
  have hA : ∀ s, V40.GRID_ReadADC (hal s r c) ≤ V40.ADC_MAX_VALUE :=
    fun s => (readADC_bounded (hal s r c) (fun i => hh s r c i)).2
  have hsum : ((List.range V40.CALIBRATION_SAMPLES).map
      fun s => V40.GRID_ReadADC (hal s r c)).sum ≤ 32760 := by
    have hmem : ∀ x ∈ (List.range V40.CALIBRATION_SAMPLES).map
        (fun s => V40.GRID_ReadADC (hal s r c)), x ≤ V40.ADC_MAX_VALUE := by
      intro x hx
      rcases List.mem_map.mp hx with ⟨s, _, rfl⟩
      exact hA s
    have := List.sum_le_card_nsmul _ _ hmem
    have h8 : V40.CALIBRATION_SAMPLES * V40.ADC_MAX_VALUE = 32760 := by
      decide
    simp at this
    omega
  have hfold : (List.range V40.CALIBRATION_SAMPLES).foldl
      (fun a s => (a + V40.GRID_ReadADC (hal s r c)) % 2 ^ 16) 0 =
      ((List.range V40.CALIBRATION_SAMPLES).map
        fun s => V40.GRID_ReadADC (hal s r c)).sum := by
    rw [← List.foldl_map (fun s => V40.GRID_ReadADC (hal s r c))
      (fun x b => (x + b) % 2 ^ 16)]
    have hlt : 0 + ((List.range V40.CALIBRATION_SAMPLES).map
        fun s => V40.GRID_ReadADC (hal s r c)).sum < 2 ^ 16 := by
      omega
    have := foldl_add_mod_of_lt (2 ^ 16) _ 0 hlt
    simpa using this
  refine ⟨hA, hsum, hfold, ?_⟩
  rw [calibrate_apply _ r c hr hc]
  rw [hfold]

/-- C10 witness: constant 12-bit samples of 1234 give per-reading value
1234 and a stored average of 1234 at cell (0, 0). -/
theorem baseline_accumulator_no_wrap_witness :
    V40.GRID_Calibrate
        (fun s rr cc => V40.GRID_ReadADC ((fun _ _ _ _ => 1234) s rr cc))
        0 0 =
      ((List.range V40.CALIBRATION_SAMPLES).map
        fun s => V40.GRID_ReadADC ((fun _ _ _ _ => 1234) s 0 0)).sum /
        V40.CALIBRATION_SAMPLES :=
  (baseline_accumulator_no_wrap (fun _ _ _ _ => 1234) 0 0 (by decide)
    (by decide)
    (fun s rr cc i => by
      show (1234 : Nat) ≤ 4095
      decide)).2.2.2
